import Mathlib

set_option maxHeartbeats 1000000

/-!
Verification of the conversion core of claude-to-openclaw-session.py.

The script is embedded shallowly: JSON values become the inductive `Json`;
Python dict access (`d.get`) becomes `pyGetD`/`pyGet`, which returns an
`Except` error on non-dict receivers (Python AttributeError); Python string
truthiness becomes `truthy`; `hashlib.md5` is embedded as a full MD5
implementation over byte lists (`md5Bytes`); input lines are modelled at the
`line.strip()` / `json.loads` boundary by the `Line` type (blank, malformed,
or a parsed JSON record).  Fallible code paths return `Except String`.
-/

namespace C2O

/-- A JSON value. Numbers are modelled as integers; no claim depends on
non-integral numeric values. -/
inductive Json where
  | null
  | bool (b : Bool)
  | num (n : Int)
  | str (s : String)
  | arr (elems : List Json)
  | obj (fields : List (String × Json))

/-- Python truthiness of a JSON value (`if x:`). -/
def truthy : Json → Bool
  | .null => false
  | .bool b => b
  | .num n => n != 0
  | .str s => s != ""
  | .arr l => !l.isEmpty
  | .obj l => !l.isEmpty

/-- Python `x == "lit"` where `x` is a JSON value and the literal a string:
true only when `x` is that string. -/
def isStr : Json → String → Bool
  | .str t, s => t == s
  | _, _ => false

/-- Python `isinstance(x, dict)`. -/
def isObj : Json → Bool
  | .obj _ => true
  | _ => false

/-- Python `isinstance(x, str)`. -/
def isStrV : Json → Bool
  | .str _ => true
  | _ => false

/-- First-match association-list lookup: the behaviour of a Python dict
read, with the dict modelled as its (unique-key) insertion-ordered pairs. -/
def alookup {α : Type} : List (String × α) → String → Option α
  | [], _ => none
  | (k, v) :: rest, key => if k = key then some v else alookup rest key

/-- Python `j.get(k, dflt)`: raises (here: `Except.error`) when the receiver
is not a dict, otherwise the value at `k` or the default. -/
def pyGetD (j : Json) (k : String) (dflt : Json) : Except String Json :=
  match j with
  | .obj kvs => .ok ((alookup kvs k).getD dflt)
  | _ => .error "AttributeError"

/-- Python `j.get(k)`: absent keys give `None` (here `Json.null`). -/
def pyGet (j : Json) (k : String) : Except String Json := pyGetD j k .null

/-- Characters stripped by Python `str.strip()`: the whitespace set of
`str.isspace` — ASCII 0x09-0x0D, 0x1C-0x1F and space, plus the Unicode
whitespace codepoints (NEL, NBSP, OGHAM SPACE MARK, the EN QUAD..HAIR
SPACE range, LINE/PARAGRAPH SEPARATOR, NARROW NBSP, MEDIUM MATHEMATICAL
SPACE, IDEOGRAPHIC SPACE). -/
def isPySpace (c : Char) : Bool :=
  let n := c.toNat
  (9 ≤ n && n ≤ 13) || (28 ≤ n && n ≤ 31) || n = 32 || n = 133 || n = 160 ||
  n = 5760 || (8192 ≤ n && n ≤ 8202) || n = 8232 || n = 8233 || n = 8239 ||
  n = 8287 || n = 12288

/-- Python `s.strip()`. -/
def pyStrip (s : String) : String :=
  ⟨((s.toList.dropWhile isPySpace).reverse.dropWhile isPySpace).reverse⟩

/-- Does `hay` start with `needle`? -/
def leadsWith : List Char → List Char → Bool
  | [], _ => true
  | _ :: _, [] => false
  | a :: as, b :: bs => a = b && leadsWith as bs

/-- Does `needle` occur contiguously inside `hay`?  This is Python's
`needle in hay` on strings, over the char lists. -/
def occursIn (needle : List Char) : List Char → Bool
  | [] => leadsWith needle []
  | c :: rest => leadsWith needle (c :: rest) || occursIn needle rest

/-- The COMMAND_NOISE tuple of the script. -/
def COMMAND_NOISE : List String :=
  ["<command-name>", "<local-command-stdout>", "<local-command-caveat>",
   "<command-message>", "<command-args>"]

/-- is_command_noise: non-strings are never noise; a string is noise iff it
contains one of the fixed marker substrings. -/
def is_command_noise (content : Json) : Bool :=
  match content with
  | .str s => COMMAND_NOISE.any (fun tag => occursIn tag.toList s.toList)
  | _ => false

/-! ### MD5 (hashlib.md5), over byte lists as natural numbers < 256 -/

/-- The 64 MD5 round constants (RFC 1321 T table). -/
def md5K : List Nat :=
  [0xd76aa478, 0xe8c7b756, 0x242070db, 0xc1bdceee,
   0xf57c0faf, 0x4787c62a, 0xa8304613, 0xfd469501,
   0x698098d8, 0x8b44f7af, 0xffff5bb1, 0x895cd7be,
   0x6b901122, 0xfd987193, 0xa679438e, 0x49b40821,
   0xf61e2562, 0xc040b340, 0x265e5a51, 0xe9b6c7aa,
   0xd62f105d, 0x02441453, 0xd8a1e681, 0xe7d3fbc8,
   0x21e1cde6, 0xc33707d6, 0xf4d50d87, 0x455a14ed,
   0xa9e3e905, 0xfcefa3f8, 0x676f02d9, 0x8d2a4c8a,
   0xfffa3942, 0x8771f681, 0x6d9d6122, 0xfde5380c,
   0xa4beea44, 0x4bdecfa9, 0xf6bb4b60, 0xbebfbc70,
   0x289b7ec6, 0xeaa127fa, 0xd4ef3085, 0x04881d05,
   0xd9d4d039, 0xe6db99e5, 0x1fa27cf8, 0xc4ac5665,
   0xf4292244, 0x432aff97, 0xab9423a7, 0xfc93a039,
   0x655b59c3, 0x8f0ccc92, 0xffeff47d, 0x85845dd1,
   0x6fa87e4f, 0xfe2ce6e0, 0xa3014314, 0x4e0811a1,
   0xf7537e82, 0xbd3af235, 0x2ad7d2bb, 0xeb86d391]

/-- The per-round left-rotation amounts. -/
def md5S : List Nat :=
  [7,12,17,22,7,12,17,22,7,12,17,22,7,12,17,22,
   5,9,14,20,5,9,14,20,5,9,14,20,5,9,14,20,
   4,11,16,23,4,11,16,23,4,11,16,23,4,11,16,23,
   6,10,15,21,6,10,15,21,6,10,15,21,6,10,15,21]

/-- Truncate to a 32-bit word. -/
def w32 (n : Nat) : Nat := n % 4294967296

/-- Bitwise complement within 32 bits (argument < 2^32). -/
def wnot (x : Nat) : Nat := 4294967295 ^^^ x

/-- 32-bit left rotation. -/
def rotl (x c : Nat) : Nat := w32 (x <<< c) ||| (x >>> (32 - c))

/-- `count` little-endian bytes of `w`. -/
def leBytes (w : Nat) : Nat → List Nat
  | 0 => []
  | n + 1 => (w % 256) :: leBytes (w / 256) n

/-- Group little-endian byte quadruples into 32-bit words. -/
def leWords : List Nat → List Nat
  | b0 :: b1 :: b2 :: b3 :: rest =>
      (b0 + 256 * b1 + 65536 * b2 + 16777216 * b3) :: leWords rest
  | _ => []

/-- MD5 padding: append 0x80, zero bytes to 56 mod 64, then the original
bit length as 8 little-endian bytes. -/
def md5Pad (msg : List Nat) : List Nat :=
  msg ++ [0x80] ++ List.replicate ((119 - msg.length % 64) % 64) 0 ++
    leBytes (msg.length * 8) 8

/-- Split a (64-divisible) byte list into 64-byte chunks. -/
def chunks64 (l : List Nat) : List (List Nat) :=
  if h : l.isEmpty then [] else l.take 64 :: chunks64 (l.drop 64)
termination_by l.length
decreasing_by
  simp only [List.isEmpty_iff] at h
  have hp : 0 < l.length := List.length_pos.mpr h
  simp only [List.length_drop]
  omega

/-- One MD5 round (index `i` from 0 to 63) on state (A, B, C, D). -/
def md5Round (M : List Nat) (st : Nat × Nat × Nat × Nat) (i : Nat) :
    Nat × Nat × Nat × Nat :=
  let A := st.1; let B := st.2.1; let C := st.2.2.1; let D := st.2.2.2
  let FG : Nat × Nat :=
    if i < 16 then ((B &&& C) ||| (wnot B &&& D), i)
    else if i < 32 then ((D &&& B) ||| (wnot D &&& C), (5 * i + 1) % 16)
    else if i < 48 then (B ^^^ C ^^^ D, (3 * i + 5) % 16)
    else (C ^^^ (B ||| wnot D), (7 * i) % 16)
  let Fv := w32 (FG.1 + A + md5K.getD i 0 + M.getD FG.2 0)
  (D, w32 (B + rotl Fv (md5S.getD i 0)), B, C)

/-- Process one 64-byte chunk. -/
def md5Chunk (st : Nat × Nat × Nat × Nat) (chunk : List Nat) :
    Nat × Nat × Nat × Nat :=
  let M := leWords chunk
  let r := (List.range 64).foldl (md5Round M) st
  (w32 (st.1 + r.1), w32 (st.2.1 + r.2.1),
   w32 (st.2.2.1 + r.2.2.1), w32 (st.2.2.2 + r.2.2.2))

/-- The 16-byte MD5 digest of a byte list. -/
def md5Bytes (msg : List Nat) : List Nat :=
  let r := (chunks64 (md5Pad msg)).foldl md5Chunk
    (0x67452301, 0xefcdab89, 0x98badcfe, 0x10325476)
  leBytes r.1 4 ++ leBytes r.2.1 4 ++ leBytes r.2.2.1 4 ++ leBytes r.2.2.2 4

/-- Lowercase hexadecimal digit for a nibble. -/
def hexChar (n : Nat) : Char := ("0123456789abcdef".toList).getD n '0'

/-- Two lowercase hex characters of a byte. -/
def byteHex (b : Nat) : List Char := [hexChar (b / 16 % 16), hexChar (b % 16)]

/-- The characters of `hexdigest()` of a digest. -/
def hexdigestChars (bytes : List Nat) : List Char := (bytes.map byteHex).flatten

/-- UTF-8 encoding of one character (Python `str.encode()` per char). -/
def utf8Char (c : Char) : List Nat :=
  let n := c.toNat
  if n < 0x80 then [n]
  else if n < 0x800 then
    [0xC0 ||| (n >>> 6), 0x80 ||| (n &&& 0x3F)]
  else if n < 0x10000 then
    [0xE0 ||| (n >>> 12), 0x80 ||| ((n >>> 6) &&& 0x3F), 0x80 ||| (n &&& 0x3F)]
  else
    [0xF0 ||| (n >>> 18), 0x80 ||| ((n >>> 12) &&& 0x3F),
     0x80 ||| ((n >>> 6) &&& 0x3F), 0x80 ||| (n &&& 0x3F)]

/-- Python `s.encode()`: UTF-8 bytes of a string. -/
def strBytes (s : String) : List Nat := (s.toList.map utf8Char).flatten

/-- short_id: first 8 characters of the lowercase hex MD5 digest. -/
def short_id (s : String) : String :=
  ⟨(hexdigestChars (md5Bytes (strBytes s))).take 8⟩

/-! ### normalize_content -/

/-- The tool_result output block: type, tool_use_id (defaulted to the empty
string), and the already-normalized content. -/
def mkToolResult (bk : List (String × Json)) (c : Json) : Json :=
  .obj [("type", .str "tool_result"),
        ("tool_use_id", (alookup bk "tool_use_id").getD (.str "")),
        ("content", c)]

/-- The nested list comprehension inside the tool_result branch: text blocks
are reduced to type/text pairs, other blocks pass through; a non-dict
element raises (Python `b.get` on a non-dict). -/
def mapToolResultContent : List Json → Except String (List Json)
  | [] => .ok []
  | b :: bs =>
    match b with
    | .obj bk =>
      let item := if isStr ((alookup bk "type").getD .null) "text"
        then Json.obj [("type", .str "text"),
                       ("text", (alookup bk "text").getD (.str ""))]
        else Json.obj bk
      match mapToolResultContent bs with
      | .error e => .error e
      | .ok rest => .ok (item :: rest)
    | _ => .error "AttributeError"

/-- One iteration of the block loop of normalize_content: `.ok none` when
the block is dropped (the `continue` on empty text), `.ok (some b)` when a
block is appended, `.error` when Python would raise (non-dict block, or a
non-string `text` field reaching `.strip()`). -/
def normBlockStep (block : Json) : Except String (Option Json) :=
  match block with
  | .obj bk =>
    let btype := (alookup bk "type").getD (.str "text")
    if isStr btype "text" then
      match (alookup bk "text").getD (.str "") with
      | .str t =>
        if pyStrip t = "" then .ok none
        else .ok (some (.obj [("type", .str "text"), ("text", .str t)]))
      | _ => .error "AttributeError"
    else if isStr btype "thinking" then
      .ok (some (.obj [("type", .str "thinking"),
        ("thinking", (alookup bk "thinking").getD (.str "")),
        ("signature", (alookup bk "signature").getD (.str ""))]))
    else if isStr btype "tool_use" then
      .ok (some (.obj [("type", .str "tool_use"),
        ("id", (alookup bk "id").getD (.str "")),
        ("name", (alookup bk "name").getD (.str "")),
        ("input", (alookup bk "input").getD (.obj []))]))
    else if isStr btype "tool_result" then
      let rc0 := (alookup bk "content").getD .null
      let rc := if truthy rc0 then rc0 else .str ""
      match rc with
      | .str s =>
        .ok (some (mkToolResult bk
          (.arr [.obj [("type", .str "text"), ("text", .str s)]])))
      | .arr l =>
        match mapToolResultContent l with
        | .error e => .error e
        | .ok l2 => .ok (some (mkToolResult bk (.arr l2)))
      | other => .ok (some (mkToolResult bk other))
    else .ok (some block)
  | _ => .error "AttributeError"

/-- The block loop of normalize_content over a content list. -/
def normBlocks : List Json → Except String (List Json)
  | [] => .ok []
  | b :: bs =>
    match normBlockStep b with
    | .error e => .error e
    | .ok r =>
      match normBlocks bs with
      | .error e => .error e
      | .ok rest => .ok (match r with | none => rest | some x => x :: rest)

/-- normalize_content: a string becomes one text block (or nothing when
whitespace-only); a list is normalized block by block, with an empty result
mapped to absent; anything else is absent. -/
def normalize_content : Json → Except String (Option (List Json))
  | .str s =>
      if pyStrip s = "" then .ok none
      else .ok (some [.obj [("type", .str "text"), ("text", .str s)]])
  | .arr l =>
    match normBlocks l with
    | .error e => .error e
    | .ok blocks => .ok (if blocks.isEmpty then none else some blocks)
  | _ => .ok none

/-- parse_ts_ms.  `fromiso` models the datetime library boundary: the
epoch-millisecond value of `datetime.fromisoformat` on the given string
(after the Z replacement), or `none` when parsing fails; the surrounding
try/except maps every failure — including a non-string input — to 0. -/
def parse_ts_ms (fromiso : String → Option Int) (raw : Json) : Int :=
  match raw with
  | .str s => (fromiso (s.replace "Z" "+00:00")).getD 0
  | _ => 0

/-! ### Model detection -/

/-- An input line at the `line.strip()` / `json.loads` boundary: blank after
stripping, failing JSON parse, or carrying a parsed JSON value. -/
inductive Line where
  | blank
  | malformed
  | record (d : Json)

/-- The scanning loop of detect_model, carrying the first-seen truthy
timestamp; stops (like the `break`) at the first assistant record whose
message dict has a truthy model. -/
def detect_go : List Line → Option Json → Except String (Option Json × Option Json)
  | [], ft => .ok (ft, none)
  | .blank :: rest, ft => detect_go rest ft
  | .malformed :: rest, ft => detect_go rest ft
  | .record d :: rest, ft =>
    match pyGet d "timestamp" with
    | .error e => .error e
    | .ok ts =>
      let ft' := if truthy ts && ft.isNone then some ts else ft
      match pyGet d "type" with
      | .error e => .error e
      | .ok ty =>
        match pyGet d "message" with
        | .error e => .error e
        | .ok msgJ =>
          if isStr ty "assistant" && isObj msgJ then
            match pyGet msgJ "model" with
            | .error e => .error e
            | .ok m =>
              if truthy m then .ok (ft', some m) else detect_go rest ft'
          else detect_go rest ft'

/-- detect_model: the scan's results with their defaults.  `now` models the
current wall-clock ISO time used when no timestamp was seen. -/
def detect_model (lines : List Line) (now : String) :
    Except String (Json × Json) :=
  match detect_go lines none with
  | .error e => .error e
  | .ok (ft, m) =>
    .ok (ft.getD (.str now), m.getD (.str "claude-opus-4-6"))

/-! ### The conversion loop -/

/-- Converter state: the three counters, the id map, a counter indexing the
fresh random uuids consumed, and the output lines written so far. -/
structure CState where
  converted : Nat
  skipped : Nat
  errors : Nat
  id_map : List (String × String)
  fresh : Nat
  out : List Json

/-- Per-run configuration: the noise-filtering flag, the detected first
timestamp, the datetime parsing boundary, and the supply of fresh random
uuids (`str(uuid.uuid4())` results, indexed by consumption order). -/
structure Cfg where
  filter : Bool
  first_ts : Json
  fromiso : String → Option Int
  freshId : Nat → String

/-- A record rejection: `skipped += 1; continue`. -/
def skip1 (s : CState) : CState := { s with skipped := s.skipped + 1 }

/-- get_short: memoized short_id over the per-run id map. -/
def get_short (idm : List (String × String)) (u : String) :
    String × List (String × String) :=
  match alookup idm u with
  | some v => (v, idm)
  | none => (short_id u, idm ++ [(u, short_id u)])

/-- The texts collected by the post-normalization noise check:
`b.get("text", "")` of every block whose `b.get("type")` is `"text"`. -/
def collectTexts : List Json → Except String (List Json)
  | [] => .ok []
  | b :: bs =>
    match pyGet b "type" with
    | .error e => .error e
    | .ok bt =>
      if isStr bt "text" then
        match pyGetD b "text" (.str "") with
        | .error e => .error e
        | .ok t =>
          match collectTexts bs with
          | .error e => .error e
          | .ok rest => .ok (t :: rest)
      else collectTexts bs

/-- Python `sep.join(xs)`: raises on any non-string element. -/
def pyJoin (sep : String) : List Json → Except String String
  | [] => .ok ""
  | [j] => match j with | .str s => .ok s | _ => .error "TypeError"
  | j :: rest =>
    match j with
    | .str s =>
      match pyJoin sep rest with
      | .error e => .error e
      | .ok r => .ok (s ++ sep ++ r)
    | _ => .error "TypeError"

/-- The space-joined text of the surviving normalized text blocks. -/
def joinedTexts (blocks : List Json) : Except String String :=
  match collectTexts blocks with
  | .error e => .error e
  | .ok ts => pyJoin " " ts

/-- The inner `message` object of an output record: role, content and epoch
timestamp, extended for assistant roles by the truthy `model` and `id`
fields of the source message. -/
def buildInner (roleJ : Json) (mkvs : List (String × Json))
    (norm : List Json) (tsms : Int) : List (String × Json) :=
  let base := [("role", roleJ), ("content", Json.arr norm),
               ("timestamp", Json.num tsms)]
  if isStr roleJ "assistant" then
    let mo := (alookup mkvs "model").getD .null
    let b1 := if truthy mo then base ++ [("model", mo)] else base
    let mi := (alookup mkvs "id").getD .null
    if truthy mi then b1 ++ [("id", mi)] else b1
  else base

/-- The tail of the loop body once a record is accepted: resolve short ids,
build the output message object, write it, bump convertedCount. -/
def emitRecord (cfg : Cfg) (s : CState) (d : Json)
    (mkvs : List (String × Json)) (roleJ : Json) (norm : List Json) :
    Except String CState :=
  match pyGetD d "timestamp" cfg.first_ts with
  | .error e => .error e
  | .ok raw_ts =>
  match pyGetD d "uuid" (.str (cfg.freshId s.fresh)) with
  | .error e => .error e
  | .ok uuidJ =>
  match pyGet d "parentUuid" with
  | .error e => .error e
  | .ok parentJ =>
  match uuidJ with
  | .str u =>
    let p1 := get_short s.id_map u
    match (if truthy parentJ then
             match parentJ with
             | .str p =>
               let p2 := get_short p1.2 p
               Except.ok (some p2.1, p2.2)
             | _ => Except.error "AttributeError"
           else Except.ok (none, p1.2) :
           Except String (Option String × List (String × String))) with
    | .error e => .error e
    | .ok ps =>
      let oc : Json := .obj [("type", .str "message"), ("id", .str p1.1),
        ("parentId", match ps.1 with | some p => Json.str p | none => .null),
        ("timestamp", raw_ts),
        ("message", .obj (buildInner roleJ mkvs norm
          (parse_ts_ms cfg.fromiso raw_ts)))]
      .ok { s with converted := s.converted + 1, id_map := ps.2,
                   fresh := s.fresh + 1, out := s.out ++ [oc] }
  | _ => .error "AttributeError"

/-- The loop body of convert for one parsed record. -/
def processRecord (cfg : Cfg) (s : CState) (d : Json) : Except String CState :=
  match pyGet d "type" with
  | .error e => .error e
  | .ok msg_type =>
  if !(isStr msg_type "user" || isStr msg_type "assistant") then .ok (skip1 s)
  else
  match pyGet d "isMeta" with
  | .error e => .error e
  | .ok im =>
  if truthy im then .ok (skip1 s)
  else
  match pyGetD d "message" (.obj []) with
  | .error e => .error e
  | .ok msgJ =>
  match msgJ with
  | .obj mkvs =>
    let roleJ := (alookup mkvs "role").getD .null
    let content := (alookup mkvs "content").getD .null
    if !(isStr roleJ "user" || isStr roleJ "assistant") then .ok (skip1 s)
    else
    if cfg.filter && isStr roleJ "user" && isStrV content &&
        is_command_noise content then .ok (skip1 s)
    else
    match normalize_content content with
    | .error e => .error e
    | .ok none => .ok (skip1 s)
    | .ok (some norm) =>
      if cfg.filter && isStr roleJ "user" then
        match joinedTexts norm with
        | .error e => .error e
        | .ok jt =>
          if is_command_noise (.str jt) then .ok (skip1 s)
          else emitRecord cfg s d mkvs roleJ norm
      else emitRecord cfg s d mkvs roleJ norm
  | _ => .ok (skip1 s)

/-- The per-line input loop of convert. -/
def convertLoop (cfg : Cfg) (s : CState) : List Line → Except String CState
  | [] => .ok s
  | .blank :: rest => convertLoop cfg s rest
  | .malformed :: rest =>
      convertLoop cfg { s with errors := s.errors + 1 } rest
  | .record d :: rest =>
    match processRecord cfg s d with
    | .error e => .error e
    | .ok t => convertLoop cfg t rest

/-- The fresh converter state. -/
def initState : CState := ⟨0, 0, 0, [], 0, []⟩

/-- The first part of `model_id.split("/", 1)` together with the rest. -/
def splitSlashAux : List Char → List Char × List Char
  | [] => ([], [])
  | c :: cs =>
    if c = '/' then ([], cs)
    else
      let r := splitSlashAux cs
      (c :: r.1, r.2)

/-- convert: detection pass, the two header lines, then the conversion
loop.  The result carries the final state (whose `out` is the sequence of
output lines, headers first) and the returned first timestamp and model. -/
def convert (lines : List Line) (session_id cwd : String) (filter : Bool)
    (now : String) (fromiso : String → Option Int) (freshId : Nat → String) :
    Except String (CState × Json × Json) :=
  match detect_model lines now with
  | .error e => .error e
  | .ok ftm =>
    match ftm.2 with
    | .str mid0 =>
      let pm :=
        if mid0.toList.contains '/' then
          let r := splitSlashAux mid0.toList
          (String.mk r.1, String.mk r.2)
        else ("anthropic", mid0)
      let header1 : Json := .obj [("type", .str "session"),
        ("version", .num 3), ("id", .str session_id),
        ("timestamp", ftm.1), ("cwd", .str cwd),
        ("model", .str (pm.1 ++ "/" ++ pm.2))]
      let header2 : Json := .obj [("type", .str "model_change"),
        ("id", .str (short_id (session_id ++ "_model"))),
        ("parentId", .null), ("timestamp", ftm.1),
        ("provider", .str pm.1), ("modelId", .str pm.2)]
      let cfg : Cfg := ⟨filter, ftm.1, fromiso, freshId⟩
      let st0 : CState := { initState with out := [header1, header2] }
      match convertLoop cfg st0 lines with
      | .error e => .error e
      | .ok s => .ok (s, ftm.1, .str pm.2)
    | _ => .error "TypeError"

/-! ### Derived observers and test fixtures -/

/-- Field read on a JSON object result (observer used in statements). -/
def jfield (j : Json) (k : String) : Option Json :=
  match j with
  | .obj f => alookup f k
  | _ => none

/-- skippedCount of a conversion step result. -/
def okSkipped : Except String CState → Option Nat
  | .ok s => some s.skipped
  | .error _ => none

/-- convertedCount of a conversion step result. -/
def okConverted : Except String CState → Option Nat
  | .ok s => some s.converted
  | .error _ => none

/-- errorCount of a conversion step result. -/
def okErrors : Except String CState → Option Nat
  | .ok s => some s.errors
  | .error _ => none

/-- Number of output lines of a conversion step result. -/
def okOutLen : Except String CState → Option Nat
  | .ok s => some s.out.length
  | .error _ => none

/-- The timestamp field of the first output line of a whole conversion. -/
def cvHeaderTs : Except String (CState × Json × Json) → Option Json
  | .ok r => r.1.out.head?.bind (fun h => jfield h "timestamp")
  | .error _ => none

/-- The id-map invariant: every memoized entry is the digest of its key. -/
def mapInv (idm : List (String × String)) : Prop :=
  ∀ k v, alookup idm k = some v → v = short_id k

/-- Spec-side reading of the tool_result nested reduction: text blocks
reduced to type/text, others unchanged. -/
def toolResultMapSpec (b : Json) : Json :=
  match b with
  | .obj bk2 =>
    if isStr ((alookup bk2 "type").getD .null) "text" then
      .obj [("type", .str "text"), ("text", (alookup bk2 "text").getD (.str ""))]
    else .obj bk2
  | _ => b

/-- Does this record stop the detection scan (assistant type, dict message,
truthy model)? -/
def announcesModel (d : Json) : Bool :=
  match d with
  | .obj kvs =>
    isStr ((alookup kvs "type").getD .null) "assistant" &&
    (match (alookup kvs "message").getD .null with
     | .obj m => truthy ((alookup m "model").getD .null)
     | _ => false)
  | _ => false

/-- The lines the detection scan visits: everything up to and including the
first model-announcing record. -/
def detectSpan : List Line → List Line
  | [] => []
  | .record d :: rest =>
      if announcesModel d then [.record d] else .record d :: detectSpan rest
  | l :: rest => l :: detectSpan rest

/-- Spec-side reading of the detected timestamp: the first truthy timestamp
field among the given lines. -/
def firstTruthyTs : List Line → Option Json
  | [] => none
  | .record (.obj kvs) :: rest =>
    let ts := (alookup kvs "timestamp").getD .null
    if truthy ts then some ts else firstTruthyTs rest
  | _ :: rest => firstTruthyTs rest

/-- Well-formedness of one content block under which normalize_content
cannot raise: it is an object; if routed to the text branch its text field
is a string; if a tool_result, a list-valued content holds only objects. -/
def blockOK (b : Json) : Bool :=
  match b with
  | .obj bk =>
    let btype := (alookup bk "type").getD (.str "text")
    if isStr btype "text" then isStrV ((alookup bk "text").getD (.str ""))
    else if isStr btype "tool_result" then
      match (if truthy ((alookup bk "content").getD .null)
             then (alookup bk "content").getD .null else .str "") with
      | .arr l => l.all isObj
      | _ => true
    else true
  | _ => false

/-- Content on which normalize_content cannot raise. -/
def contentOK : Json → Bool
  | .arr l => l.all blockOK
  | _ => true

/-- Fixture: conversion configuration with filtering enabled. -/
def cfgEx : Cfg := ⟨true, .str "T", fun _ => none, fun _ => "fresh"⟩

/-- Fixture: the same configuration with filtering disabled. -/
def cfgExNoFilter : Cfg := ⟨false, .str "T", fun _ => none, fun _ => "fresh"⟩

/-- Fixture: a record typed user whose inner role is assistant. -/
def exMismatch : Json := .obj [("type", .str "user"),
  ("message", .obj [("role", .str "assistant"), ("content", .str "hi")]),
  ("uuid", .str "u1")]

/-- Fixture: a user record whose content is exactly the command-name
marker. -/
def exNoise : Json := .obj [("type", .str "user"),
  ("message", .obj [("role", .str "user"),
    ("content", .str "<command-name>run</command-name>")]),
  ("uuid", .str "u1")]

/-- Fixture: an assistant record announcing a model, with no timestamp. -/
def exAssistM : Json := .obj [("type", .str "assistant"),
  ("message", .obj [("role", .str "assistant"), ("content", .str "hi"),
    ("model", .str "m")]),
  ("uuid", .str "u2")]

/-- Fixture: a record carrying only a timestamp. -/
def exTsOnly : Json := .obj [("timestamp", .str "2024-01-01T00:00:00Z")]

/-- Fixture: the stream where the only timestamp appears after the
model-announcing line. -/
def linesC3 : List Line := [.record exAssistM, .record exTsOnly]

/-- Did a whole conversion succeed? -/
def cvOk : Except String (CState × Json × Json) → Bool
  | .ok _ => true
  | .error _ => false

/-! ## Theorems -/

/-! ### Substring and whitespace lemmas -/

theorem leadsWith_iff (n h : List Char) :
    leadsWith n h = true ↔ ∃ r, h = n ++ r := by
  induction n generalizing h with
  | nil => simp [leadsWith]
  | cons a as ih =>
    cases h with
    | nil => simp [leadsWith]
    | cons b bs =>
      simp only [leadsWith, Bool.and_eq_true, decide_eq_true_eq, ih,
        List.cons_append, List.cons.injEq]
      constructor
      · rintro ⟨hab, r, hr⟩
        exact ⟨r, hab.symm, hr⟩
      · rintro ⟨r, hab, hr⟩
        exact ⟨hab.symm, r, hr⟩

theorem occursIn_iff (n h : List Char) :
    occursIn n h = true ↔ ∃ l r, h = l ++ n ++ r := by
  induction h with
  | nil =>
    simp only [occursIn, leadsWith_iff]
    constructor
    · rintro ⟨r, hr⟩
      exact ⟨[], r, by simpa using hr⟩
    · rintro ⟨l, r, hr⟩
      have h0 : l ++ (n ++ r) = [] := by simpa using hr.symm
      rcases List.append_eq_nil.mp h0 with ⟨h1, h23⟩
      rcases List.append_eq_nil.mp h23 with ⟨h2, h3⟩
      exact ⟨[], by simp [h2, h3]⟩
  | cons c rest ih =>
    simp only [occursIn, Bool.or_eq_true, leadsWith_iff, ih]
    constructor
    · rintro (⟨r, hr⟩ | ⟨l, r, hr⟩)
      · exact ⟨[], r, by simpa using hr⟩
      · exact ⟨c :: l, r, by simp [hr]⟩
    · rintro ⟨l, r, hr⟩
      cases l with
      | nil => exact Or.inl ⟨r, by simpa using hr⟩
      | cons x xs =>
        right
        simp only [List.cons_append, List.cons.injEq] at hr
        exact ⟨xs, r, hr.2⟩

theorem pyStrip_eq_empty_iff (s : String) :
    pyStrip s = "" ↔ ∀ c ∈ s.toList, isPySpace c = true := by
  unfold pyStrip
  constructor
  · intro h c hc
    have hdata : ((s.toList.dropWhile isPySpace).reverse.dropWhile
        isPySpace).reverse = ([] : List Char) := congrArg String.data h
    rw [List.reverse_eq_nil_iff, List.dropWhile_eq_nil_iff] at hdata
    have hdrop : ∀ x ∈ s.toList.dropWhile isPySpace, isPySpace x = true := by
      intro x hx
      exact hdata x (List.mem_reverse.mpr hx)
    have hsplit := List.takeWhile_append_dropWhile (p := isPySpace)
      (l := s.toList)
    rw [← hsplit] at hc
    rcases List.mem_append.mp hc with htk | hdr
    · exact List.mem_takeWhile_imp htk
    · exact hdrop c hdr
  · intro hall
    have h1 : s.toList.dropWhile isPySpace = [] :=
      List.dropWhile_eq_nil_iff.mpr hall
    rw [h1]
    rfl

theorem allspace_not_noise (s : String)
    (hall : ∀ c ∈ s.toList, isPySpace c = true) :
    is_command_noise (.str s) = false := by
  by_contra hne
  have htrue : is_command_noise (.str s) = true := by
    cases h : is_command_noise (.str s) with
    | false => exact absurd h hne
    | true => rfl
  simp only [is_command_noise, List.any_eq_true] at htrue
  obtain ⟨tag, htag, hocc⟩ := htrue
  rw [occursIn_iff] at hocc
  obtain ⟨l, r, hr⟩ := hocc
  have hlt : '<' ∈ tag.toList := by
    fin_cases htag <;> decide
  have hmem : '<' ∈ s.toList := by
    rw [hr]
    simp only [List.mem_append]
    refine Or.inl (Or.inr ?_)
    simpa using hlt
  have := hall '<' hmem
  simp [isPySpace] at this

/-! ### Digest shape and id-map lemmas -/

theorem leBytes_length (w n : Nat) : (leBytes w n).length = n := by
  induction n generalizing w with
  | zero => rfl
  | succ k ih => simp [leBytes, ih]

theorem md5Bytes_length (m : List Nat) : (md5Bytes m).length = 16 := by
  simp [md5Bytes, leBytes_length]

theorem hexdigestChars_length (bs : List Nat) :
    (hexdigestChars bs).length = 2 * bs.length := by
  induction bs with
  | nil => rfl
  | cons b bs ih =>
    simp only [hexdigestChars, List.map_cons, List.flatten_cons,
      List.length_append, List.length_cons] at *
    simp [byteHex, ih]
    omega

theorem hexChar_mem (n : Nat) : hexChar n ∈ "0123456789abcdef".toList := by
  by_cases h : n < 16
  · interval_cases n <;> decide
  · unfold hexChar
    rw [List.getD_eq_default]
    · decide
    · rw [show ("0123456789abcdef".toList).length = 16 from rfl]
      omega

theorem short_id_length (s : String) : (short_id s).length = 8 := by
  have h32 : (hexdigestChars (md5Bytes (strBytes s))).length = 32 := by
    rw [hexdigestChars_length, md5Bytes_length]
  show ((hexdigestChars (md5Bytes (strBytes s))).take 8).length = 8
  rw [List.length_take, h32]
  decide

theorem short_id_chars (s : String) :
    ∀ c ∈ (short_id s).toList, c ∈ "0123456789abcdef".toList := by
  intro c hc
  have hc2 : c ∈ (hexdigestChars (md5Bytes (strBytes s))).take 8 := hc
  have hc3 : c ∈ hexdigestChars (md5Bytes (strBytes s)) :=
    List.take_subset 8 _ hc2
  simp only [hexdigestChars] at hc3
  rcases List.mem_flatten.mp hc3 with ⟨lc, hlc, hcl⟩
  rcases List.mem_map.mp hlc with ⟨b, _, rfl⟩
  simp only [byteHex, List.mem_cons, List.not_mem_nil, or_false] at hcl
  rcases hcl with h | h <;> rw [h] <;> exact hexChar_mem _

theorem get_short_fst (idm : List (String × String)) (u : String)
    (hinv : mapInv idm) : (get_short idm u).1 = short_id u := by
  unfold get_short
  cases h : alookup idm u with
  | none => rfl
  | some v => simpa using hinv u v h

theorem alookup_append {α : Type} (a b : List (String × α)) (k : String) :
    alookup (a ++ b) k =
      match alookup a k with
      | some v => some v
      | none => alookup b k := by
  induction a with
  | nil => rfl
  | cons p rest ih =>
    cases p with
    | mk k2 v2 =>
      simp only [List.cons_append, alookup]
      by_cases h : k2 = k
      · simp [h]
      · simp [h, ih]

theorem get_short_inv (idm : List (String × String)) (u : String)
    (hinv : mapInv idm) : mapInv (get_short idm u).2 := by
  unfold get_short
  cases h : alookup idm u with
  | some v => exact hinv
  | none =>
    intro k v hk
    simp only at hk
    rw [alookup_append] at hk
    cases h2 : alookup idm k with
    | some w =>
      rw [h2] at hk
      simp only [Option.some.injEq] at hk
      subst hk
      exact hinv k w h2
    | none =>
      rw [h2] at hk
      by_cases h3 : u = k
      · subst h3
        simp [alookup] at hk
        rw [← hk]
      · simp [alookup, h3] at hk

/-! ### C4 -/

/-- C4: `shorten` (short_id) always yields an 8-character string of
lowercase hexadecimal characters, and is a pure function of the input
text: the memoizing wrapper get_short returns exactly short_id of its
argument under the id-map invariant (which the empty map of every fresh
run satisfies), so repeated calls in any order and across runs agree. -/
theorem c4_short_id_pure (s : String) (idm : List (String × String))
    (hinv : mapInv idm) :
    (short_id s).length = 8 ∧
    (∀ c ∈ (short_id s).toList, c ∈ "0123456789abcdef".toList) ∧
    (get_short idm s).1 = short_id s := by
  refine ⟨short_id_length s, short_id_chars s, get_short_fst idm s hinv⟩

/-- Witness for C4 at the concrete identifier u1 and the fresh (empty)
id map. -/
theorem c4_witness :
    (short_id "u1").length = 8 ∧
    (∀ c ∈ (short_id "u1").toList, c ∈ "0123456789abcdef".toList) ∧
    (get_short [] "u1").1 = short_id "u1" :=
  c4_short_id_pure "u1" [] (by intro k v h; simp [alookup] at h)

/-! ### Normalization lemmas, C2, C9, C7 -/

theorem mapToolResultContent_eq_map (l : List Json)
    (h : ∀ b ∈ l, isObj b = true) :
    mapToolResultContent l = .ok (l.map toolResultMapSpec) := by
  induction l with
  | nil => rfl
  | cons b bs ih =>
    have hb := h b (by simp)
    cases b with
    | obj bk =>
      simp only [mapToolResultContent, List.map_cons]
      rw [ih (fun x hx => h x (by simp [hx]))]
      simp [toolResultMapSpec]
    | null => simp [isObj] at hb
    | bool v => simp [isObj] at hb
    | num v => simp [isObj] at hb
    | str v => simp [isObj] at hb
    | arr v => simp [isObj] at hb

theorem normBlockStep_ok (b : Json) (h : blockOK b = true) :
    ∃ r, normBlockStep b = .ok r := by
  cases b with
  | obj bk =>
    simp only [blockOK] at h
    simp only [normBlockStep]
    by_cases h1 : isStr ((alookup bk "type").getD (.str "text")) "text" = true
    · rw [if_pos h1] at h ⊢
      obtain ⟨t, ht⟩ : ∃ t, (alookup bk "text").getD (.str "") = Json.str t := by
        cases hx : (alookup bk "text").getD (.str "") with
        | str u => exact ⟨u, rfl⟩
        | null => rw [hx] at h; simp [isStrV] at h
        | bool v => rw [hx] at h; simp [isStrV] at h
        | num v => rw [hx] at h; simp [isStrV] at h
        | arr v => rw [hx] at h; simp [isStrV] at h
        | obj v => rw [hx] at h; simp [isStrV] at h
      rw [ht]
      by_cases h3 : pyStrip t = ""
      · refine ⟨none, ?_⟩
        simp [h3]
      · refine ⟨some (.obj [("type", .str "text"), ("text", .str t)]), ?_⟩
        simp [h3]
    · rw [if_neg h1] at h ⊢
      by_cases h2 : isStr ((alookup bk "type").getD (.str "text")) "thinking" = true
      · rw [if_pos h2]; exact ⟨_, rfl⟩
      · rw [if_neg h2]
        by_cases h3 : isStr ((alookup bk "type").getD (.str "text")) "tool_use" = true
        · rw [if_pos h3]; exact ⟨_, rfl⟩
        · rw [if_neg h3]
          by_cases h4 :
              isStr ((alookup bk "type").getD (.str "text")) "tool_result" = true
          · rw [if_pos h4] at h ⊢
            cases h5 : (if truthy ((alookup bk "content").getD .null)
                then (alookup bk "content").getD .null else Json.str "") with
            | arr l =>
              rw [h5] at h
              have hmap := mapToolResultContent_eq_map l
                (fun x hx => List.all_eq_true.mp h x hx)
              refine ⟨some (mkToolResult bk (.arr (l.map toolResultMapSpec))), ?_⟩
              simp [hmap]
            | str t => exact ⟨_, rfl⟩
            | null => exact ⟨_, rfl⟩
            | bool v => exact ⟨_, rfl⟩
            | num v => exact ⟨_, rfl⟩
            | obj v => exact ⟨_, rfl⟩
          · rw [if_neg h4]; exact ⟨_, rfl⟩
  | null => simp [blockOK] at h
  | bool v => simp [blockOK] at h
  | num v => simp [blockOK] at h
  | str v => simp [blockOK] at h
  | arr v => simp [blockOK] at h

theorem normBlocks_ok (l : List Json) (h : ∀ b ∈ l, blockOK b = true) :
    ∃ r, normBlocks l = .ok r := by
  induction l with
  | nil => exact ⟨[], rfl⟩
  | cons b bs ih =>
    obtain ⟨r1, hr1⟩ := normBlockStep_ok b (h b (by simp))
    obtain ⟨r2, hr2⟩ := ih (fun x hx => h x (by simp [hx]))
    cases r1 with
    | none => exact ⟨r2, by simp [normBlocks, hr1, hr2]⟩
    | some x => exact ⟨x :: r2, by simp [normBlocks, hr1, hr2]⟩

/-- C2 counterexample: a content list containing a bare string makes
normalize_content raise (Python AttributeError on str.get), so the
function is not total on such inputs as the claim states. -/
theorem c2_counterexample :
    normalize_content (.arr [.str "x"]) = .error "AttributeError" := rfl

/-- C2 (amended): normalize_content never raises on any string or
non-list content, and never raises on a list content all of whose
elements are well-formed blocks (objects whose text field, when the block
is routed to the text branch, is a string, and whose tool_result nested
content lists hold only objects); an element without a type field is
handled exactly like one explicitly tagged text. -/
theorem c2_normalize_total :
    (∀ j, contentOK j = true → ∃ r, normalize_content j = .ok r) ∧
    (∀ bk, alookup bk "type" = none →
       normBlockStep (.obj bk) =
         normBlockStep (.obj (("type", .str "text") :: bk))) := by
  constructor
  · intro j hj
    cases j with
    | str s =>
      simp only [normalize_content]
      split <;> exact ⟨_, rfl⟩
    | arr l =>
      simp only [contentOK] at hj
      obtain ⟨r, hr⟩ := normBlocks_ok l (fun b hb => List.all_eq_true.mp hj b hb)
      simp only [normalize_content, hr]
      exact ⟨_, rfl⟩
    | null => exact ⟨_, rfl⟩
    | bool v => exact ⟨_, rfl⟩
    | num v => exact ⟨_, rfl⟩
    | obj v => exact ⟨_, rfl⟩
  · intro bk h
    simp only [normBlockStep, alookup, h]
    rfl

/-- Witness for C2: a list of one untyped block and one thinking block
normalizes without error. -/
theorem c2_witness :
    ∃ r, normalize_content (.arr [.obj [("text", .str "hello")],
      .obj [("type", .str "thinking")]]) = .ok r :=
  c2_normalize_total.1 _ rfl

/-- C9: empty or all-whitespace string content normalizes to absent, and a
record carrying such content is skipped (skippedCount only, nothing
emitted) for every configuration, filtering enabled or not; a string with
any non-whitespace character normalizes to exactly one text block carrying
the string verbatim. -/
theorem c9_empty_content :
    (∀ s : String, (∀ c ∈ s.toList, isPySpace c = true) →
       normalize_content (.str s) = .ok none) ∧
    (∀ s : String, ¬(∀ c ∈ s.toList, isPySpace c = true) →
       normalize_content (.str s) =
         .ok (some [.obj [("type", .str "text"), ("text", .str s)]])) ∧
    (∀ (cfg : Cfg) (st : CState) kvs mkvs (tyS roleS : String) (c : String),
       alookup kvs "type" = some (.str tyS) →
       (tyS = "user" ∨ tyS = "assistant") →
       truthy ((alookup kvs "isMeta").getD .null) = false →
       (alookup kvs "message").getD (.obj []) = .obj mkvs →
       (alookup mkvs "role").getD .null = .str roleS →
       (roleS = "user" ∨ roleS = "assistant") →
       (alookup mkvs "content").getD .null = .str c →
       (∀ ch ∈ c.toList, isPySpace ch = true) →
       processRecord cfg st (.obj kvs) = .ok (skip1 st)) := by
  refine ⟨?_, ?_, ?_⟩
  · intro s h
    simp [normalize_content, (pyStrip_eq_empty_iff s).mpr h]
  · intro s h
    have hne : ¬pyStrip s = "" := fun hx => h ((pyStrip_eq_empty_iff s).mp hx)
    simp [normalize_content, hne]
  · intro cfg st kvs mkvs tyS roleS c hty htyv hmeta hmsg hrole hrolev hcontent hall
    have hstrip : pyStrip c = "" := (pyStrip_eq_empty_iff c).mpr hall
    have hnoise : is_command_noise (.str c) = false := allspace_not_noise c hall
    rcases htyv with rfl | rfl <;> rcases hrolev with rfl | rfl <;>
      simp [processRecord, pyGet, pyGetD, normalize_content, isStr, isStrV,
        hty, hmeta, hmsg, hrole, hcontent, hnoise, hstrip]

/-- Witness for C9 at the all-whitespace content of a user record. -/
theorem c9_witness :
    normalize_content (.str "   ") = .ok none ∧
    normalize_content (.str "hello") =
      .ok (some [.obj [("type", .str "text"), ("text", .str "hello")]]) ∧
    processRecord cfgEx initState
      (.obj [("type", .str "user"),
        ("message", .obj [("role", .str "user"), ("content", .str "   ")]),
        ("uuid", .str "u1")]) = .ok (skip1 initState) :=
  ⟨c9_empty_content.1 "   " (by decide),
   c9_empty_content.2.1 "hello" (by decide),
   c9_empty_content.2.2 cfgEx initState _ _ "user" "user" "   "
     rfl (Or.inl rfl) rfl rfl rfl (Or.inl rfl) rfl (by decide)⟩

/-- C7: for a tool_result block, the produced block carries the block's
tool_use_id and its normalized content; a string content becomes a single
text block; a (non-empty) list content whose elements are objects is
mapped elementwise in order, where type-text elements reduce to a bare
type/text pair and all other elements pass through unchanged. -/
theorem c7_tool_result (bk : List (String × Json))
    (hty : alookup bk "type" = some (.str "tool_result")) :
    (∀ c, jfield (mkToolResult bk c) "tool_use_id" =
        some ((alookup bk "tool_use_id").getD (.str "")) ∧
      jfield (mkToolResult bk c) "content" = some c) ∧
    (∀ s, (alookup bk "content").getD .null = .str s →
       normBlockStep (.obj bk) =
         .ok (some (mkToolResult bk
           (.arr [.obj [("type", .str "text"), ("text", .str s)]])))) ∧
    (∀ l, (alookup bk "content").getD .null = .arr l → l ≠ [] →
       (∀ b ∈ l, isObj b = true) →
       normBlockStep (.obj bk) =
         .ok (some (mkToolResult bk (.arr (l.map toolResultMapSpec))))) ∧
    (∀ bk2, isStr ((alookup bk2 "type").getD .null) "text" = true →
       toolResultMapSpec (.obj bk2) =
         .obj [("type", .str "text"), ("text", (alookup bk2 "text").getD (.str ""))]) ∧
    (∀ bk2, isStr ((alookup bk2 "type").getD .null) "text" = false →
       toolResultMapSpec (.obj bk2) = .obj bk2) := by
  refine ⟨?_, ?_, ?_, ?_, ?_⟩
  · intro c
    constructor <;> simp [jfield, mkToolResult, alookup]
  · intro s hs
    have hrc : (if truthy ((alookup bk "content").getD .null)
        then (alookup bk "content").getD .null else Json.str "") = .str s := by
      rw [hs]
      by_cases hse : s = ""
      · simp [truthy, hse]
      · simp [truthy, hse]
    simp only [normBlockStep, hty, Option.getD_some]
    simp only [isStr, beq_iff_eq, hrc]
    simp
  · intro l hl hne hobj
    have hrc : (if truthy ((alookup bk "content").getD .null)
        then (alookup bk "content").getD .null else Json.str "") = .arr l := by
      rw [hl]
      simp [truthy, List.isEmpty_iff, hne]
    simp only [normBlockStep, hty, Option.getD_some]
    simp only [isStr, beq_iff_eq, hrc]
    rw [mapToolResultContent_eq_map l hobj]
    simp
  · intro bk2 h
    simp [toolResultMapSpec, h]
  · intro bk2 h
    simp [toolResultMapSpec, h]

/-- Witness for C7 on a tool_result block holding one text and one image
block. -/
theorem c7_witness :
    normBlockStep (.obj [("type", .str "tool_result"),
      ("tool_use_id", .str "t1"),
      ("content", .arr [.obj [("type", .str "text"), ("text", .str "out"),
          ("extra", .num 1)],
        .obj [("type", .str "image"), ("data", .str "xyz")]])]) =
      .ok (some (mkToolResult
        [("type", .str "tool_result"), ("tool_use_id", .str "t1"),
         ("content", .arr [.obj [("type", .str "text"), ("text", .str "out"),
            ("extra", .num 1)],
          .obj [("type", .str "image"), ("data", .str "xyz")]])]
        (.arr [.obj [("type", .str "text"), ("text", .str "out")],
          .obj [("type", .str "image"), ("data", .str "xyz")]]))) := by
  have h := (c7_tool_result
    [("type", .str "tool_result"), ("tool_use_id", .str "t1"),
     ("content", .arr [.obj [("type", .str "text"), ("text", .str "out"),
        ("extra", .num 1)],
      .obj [("type", .str "image"), ("data", .str "xyz")]])] rfl).2.2.1
    [.obj [("type", .str "text"), ("text", .str "out"), ("extra", .num 1)],
     .obj [("type", .str "image"), ("data", .str "xyz")]]
    rfl (by simp) (by intro b hb; fin_cases hb <;> rfl)
  simpa using h

/-! ### Step-shape lemmas, C8, C1 -/

@[simp] theorem isStr_str (t s : String) : isStr (.str t) s = (t == s) := rfl

theorem emitRecord_shape (cfg : Cfg) (s : CState) (d : Json)
    (mkvs : List (String × Json)) (roleJ : Json) (norm : List Json)
    (s' : CState) (h : emitRecord cfg s d mkvs roleJ norm = .ok s') :
    s'.errors = s.errors ∧ s'.skipped = s.skipped ∧
    s'.converted = s.converted + 1 ∧ ∃ m, s'.out = s.out ++ [m] := by
  simp only [emitRecord] at h
  repeat' split at h
  all_goals try exact Except.noConfusion h
  all_goals (injection h with h; subst h; exact ⟨rfl, rfl, rfl, _, rfl⟩)

theorem processRecord_shape (cfg : Cfg) (s : CState) (d : Json)
    (s' : CState) (h : processRecord cfg s d = .ok s') :
    s'.errors = s.errors ∧
    ((s' = skip1 s) ∨
     (s'.skipped = s.skipped ∧ s'.converted = s.converted + 1 ∧
      ∃ m, s'.out = s.out ++ [m])) := by
  simp only [processRecord] at h
  repeat' split at h
  all_goals try exact Except.noConfusion h
  all_goals try (injection h with h; subst h; exact ⟨rfl, Or.inl rfl⟩)
  all_goals exact ⟨(emitRecord_shape _ _ _ _ _ _ _ h).1,
    Or.inr (emitRecord_shape _ _ _ _ _ _ _ h).2⟩

/-- C8: per-line accounting of the conversion loop — a blank line changes
nothing, an unparsable line bumps errorCount alone, and a parsed record
either is rejected (skippedCount alone, no output) or is converted
(convertedCount alone, one output line); in either case errorCount is
untouched. -/
theorem c8_line_accounting (cfg : Cfg) (s : CState) :
    (∀ rest, convertLoop cfg s (.blank :: rest) = convertLoop cfg s rest) ∧
    (∀ rest, convertLoop cfg s (.malformed :: rest) =
       convertLoop cfg { s with errors := s.errors + 1 } rest) ∧
    (∀ d s', processRecord cfg s d = .ok s' →
       s'.errors = s.errors ∧
       ((s'.skipped = s.skipped + 1 ∧ s'.converted = s.converted ∧
           s'.out = s.out) ∨
        (s'.skipped = s.skipped ∧ s'.converted = s.converted + 1 ∧
           s'.out.length = s.out.length + 1))) := by
  refine ⟨fun rest => rfl, fun rest => rfl, fun d s' h => ?_⟩
  obtain ⟨he, hcase⟩ := processRecord_shape cfg s d s' h
  refine ⟨he, ?_⟩
  rcases hcase with rfl | ⟨hs, hc, m, ho⟩
  · exact Or.inl ⟨rfl, rfl, rfl⟩
  · exact Or.inr ⟨hs, hc, by simp [ho]⟩

/-- Witness for C8: a record of unconvertible type is rejected with
skippedCount alone. -/
theorem c8_witness :
    (skip1 initState).errors = initState.errors ∧
    (((skip1 initState).skipped = initState.skipped + 1 ∧
        (skip1 initState).converted = initState.converted ∧
        (skip1 initState).out = initState.out) ∨
     ((skip1 initState).skipped = initState.skipped ∧
        (skip1 initState).converted = initState.converted + 1 ∧
        (skip1 initState).out.length = initState.out.length + 1)) :=
  (c8_line_accounting cfgEx initState).2.2
    (.obj [("type", .str "system")]) (skip1 initState) rfl

/-- C1 counterexample: the record typed user whose inner role is assistant
is NOT rejected — it is converted (convertedCount 1, one output line,
skippedCount 0), because the code only checks that the role is user or
assistant, never that it matches the type. -/
theorem c1_counterexample :
    okSkipped (processRecord cfgEx initState exMismatch) = some 0 ∧
    okConverted (processRecord cfgEx initState exMismatch) = some 1 ∧
    okOutLen (processRecord cfgEx initState exMismatch) = some 1 :=
  ⟨rfl, rfl, rfl⟩

/-- C1 (amended): a record of accepted type whose inner message role is
absent or not one of user/assistant is skipped (skippedCount alone, no
output); a role/type mismatch within the accepted pair is not rejected. -/
theorem c1_role_gate (cfg : Cfg) (st : CState) (kvs mkvs : List (String × Json))
    (tyS : String)
    (hty : alookup kvs "type" = some (.str tyS))
    (htyv : tyS = "user" ∨ tyS = "assistant")
    (hmeta : truthy ((alookup kvs "isMeta").getD .null) = false)
    (hmsg : (alookup kvs "message").getD (.obj []) = .obj mkvs)
    (hrole1 : isStr ((alookup mkvs "role").getD .null) "user" = false)
    (hrole2 : isStr ((alookup mkvs "role").getD .null) "assistant" = false) :
    processRecord cfg st (.obj kvs) = .ok (skip1 st) := by
  rcases htyv with rfl | rfl <;>
    simp [processRecord, pyGet, pyGetD, hty, hmeta, hmsg, hrole1, hrole2]

/-- Witness for C1 (amended): a user record whose role field is the string
tool is skipped. -/
theorem c1_witness :
    processRecord cfgEx initState
      (.obj [("type", .str "user"),
        ("message", .obj [("role", .str "tool"), ("content", .str "x")])]) =
      .ok (skip1 initState) :=
  c1_role_gate cfgEx initState _ _ "user" rfl (Or.inl rfl) rfl rfl rfl rfl

/-! ### Accepted-record reduction, C10, C5 -/

theorem processRecord_accepted (cfg : Cfg) (st : CState)
    (kvs mkvs : List (String × Json)) (tyS roleS : String) (content : Json)
    (norm : List Json)
    (hty : alookup kvs "type" = some (.str tyS))
    (htyv : tyS = "user" ∨ tyS = "assistant")
    (hmeta : truthy ((alookup kvs "isMeta").getD .null) = false)
    (hmsg : (alookup kvs "message").getD (.obj []) = .obj mkvs)
    (hrole : (alookup mkvs "role").getD .null = .str roleS)
    (hrolev : roleS = "user" ∨ roleS = "assistant")
    (hcontent : (alookup mkvs "content").getD .null = content)
    (hn1 : cfg.filter = true → roleS = "user" →
       is_command_noise content = false)
    (hnorm : normalize_content content = .ok (some norm))
    (hn2 : cfg.filter = true → roleS = "user" →
       ∃ jt, joinedTexts norm = .ok jt ∧ is_command_noise (.str jt) = false) :
    processRecord cfg st (.obj kvs) =
      emitRecord cfg st (.obj kvs) mkvs (.str roleS) norm := by
  rcases hrolev with rfl | rfl
  · by_cases hf : cfg.filter = true
    · obtain ⟨jt, hjt, hjn⟩ := hn2 hf rfl
      have hn1' := hn1 hf rfl
      rcases htyv with rfl | rfl <;>
        simp [processRecord, pyGet, pyGetD, hty, hmeta, hmsg, hrole,
          hcontent, hnorm, hf, hn1', hjt, hjn]
    · have hf' : cfg.filter = false := by
        revert hf; cases cfg.filter <;> simp
      rcases htyv with rfl | rfl <;>
        simp [processRecord, pyGet, pyGetD, hty, hmeta, hmsg, hrole,
          hcontent, hnorm, hf']
  · rcases htyv with rfl | rfl <;>
      simp [processRecord, pyGet, pyGetD, hty, hmeta, hmsg, hrole,
        hcontent, hnorm]

theorem emitRecord_noparent (cfg : Cfg) (st : CState)
    (kvs mkvs : List (String × Json)) (roleJ : Json) (norm : List Json)
    (u : String)
    (huuid : (alookup kvs "uuid").getD (.str (cfg.freshId st.fresh)) = .str u)
    (hpar : truthy ((alookup kvs "parentUuid").getD .null) = false) :
    emitRecord cfg st (.obj kvs) mkvs roleJ norm = .ok
      { converted := st.converted + 1, skipped := st.skipped,
        errors := st.errors, id_map := (get_short st.id_map u).2,
        fresh := st.fresh + 1,
        out := st.out ++ [.obj [("type", .str "message"),
          ("id", .str (get_short st.id_map u).1), ("parentId", .null),
          ("timestamp", (alookup kvs "timestamp").getD cfg.first_ts),
          ("message", .obj (buildInner roleJ mkvs norm
            (parse_ts_ms cfg.fromiso
              ((alookup kvs "timestamp").getD cfg.first_ts))))]] } := by
  simp [emitRecord, pyGet, pyGetD, huuid, hpar]

theorem emitRecord_parent (cfg : Cfg) (st : CState)
    (kvs mkvs : List (String × Json)) (roleJ : Json) (norm : List Json)
    (u p : String)
    (huuid : (alookup kvs "uuid").getD (.str (cfg.freshId st.fresh)) = .str u)
    (hpar : (alookup kvs "parentUuid").getD .null = .str p)
    (hpne : p ≠ "") :
    emitRecord cfg st (.obj kvs) mkvs roleJ norm = .ok
      { converted := st.converted + 1, skipped := st.skipped,
        errors := st.errors,
        id_map := (get_short (get_short st.id_map u).2 p).2,
        fresh := st.fresh + 1,
        out := st.out ++ [.obj [("type", .str "message"),
          ("id", .str (get_short st.id_map u).1),
          ("parentId", .str (get_short (get_short st.id_map u).2 p).1),
          ("timestamp", (alookup kvs "timestamp").getD cfg.first_ts),
          ("message", .obj (buildInner roleJ mkvs norm
            (parse_ts_ms cfg.fromiso
              ((alookup kvs "timestamp").getD cfg.first_ts))))]] } := by
  simp [emitRecord, pyGet, pyGetD, huuid, hpar, truthy, hpne]

theorem buildInner_ts (roleJ : Json) (mkvs : List (String × Json))
    (norm : List Json) (tsms : Int) :
    alookup (buildInner roleJ mkvs norm tsms) "timestamp" =
      some (.num tsms) := by
  simp only [buildInner]
  split
  · split <;> split <;> simp [alookup, alookup_append]
  · simp [alookup]

theorem convertLoop_out_mono (cfg : Cfg) (lines : List Line) :
    ∀ s s', convertLoop cfg s lines = .ok s' → ∃ t, s'.out = s.out ++ t := by
  induction lines with
  | nil =>
    intro s s' h
    injection h with h
    subst h
    exact ⟨[], by simp⟩
  | cons l rest ih =>
    intro s s' h
    cases l with
    | blank => exact ih s s' h
    | malformed =>
      obtain ⟨t, ht⟩ := ih _ s' h
      exact ⟨t, by simpa using ht⟩
    | record d =>
      simp only [convertLoop] at h
      cases hp : processRecord cfg s d with
      | error e => rw [hp] at h; exact Except.noConfusion h
      | ok s1 =>
        rw [hp] at h
        obtain ⟨t1, ht1⟩ := ih s1 s' h
        obtain ⟨_, hcase⟩ := processRecord_shape cfg s d s1 hp
        rcases hcase with rfl | ⟨_, _, m, hm⟩
        · exact ⟨t1, by simpa [skip1] using ht1⟩
        · exact ⟨[m] ++ t1, by rw [ht1, hm]; simp⟩

theorem emitRecord_inv (cfg : Cfg) (s : CState) (d : Json)
    (mkvs : List (String × Json)) (roleJ : Json) (norm : List Json)
    (s' : CState) (h : emitRecord cfg s d mkvs roleJ norm = .ok s')
    (hinv : mapInv s.id_map) : mapInv s'.id_map := by
  simp only [emitRecord] at h
  cases h1 : pyGetD d "timestamp" cfg.first_ts with
  | error e => rw [h1] at h; exact Except.noConfusion h
  | ok raw_ts =>
    rw [h1] at h
    cases h2 : pyGetD d "uuid" (.str (cfg.freshId s.fresh)) with
    | error e => rw [h2] at h; exact Except.noConfusion h
    | ok uuidJ =>
      rw [h2] at h
      cases h3 : pyGet d "parentUuid" with
      | error e => rw [h3] at h; exact Except.noConfusion h
      | ok parentJ =>
        rw [h3] at h
        cases uuidJ with
        | str u =>
          by_cases h4 : truthy parentJ = true
          · cases parentJ with
            | str p =>
              simp only [h4, if_true] at h
              injection h with h
              subst h
              exact get_short_inv _ _ (get_short_inv _ _ hinv)
            | null => simp [truthy] at h4
            | bool v =>
              simp only [h4, if_true] at h
              exact Except.noConfusion h
            | num v =>
              simp only [h4, if_true] at h
              exact Except.noConfusion h
            | arr v =>
              simp only [h4, if_true] at h
              exact Except.noConfusion h
            | obj v =>
              simp only [h4, if_true] at h
              exact Except.noConfusion h
          · simp only [h4, if_false, Bool.false_eq_true] at h
            injection h with h
            subst h
            exact get_short_inv _ _ hinv
        | null => exact Except.noConfusion h
        | bool v => exact Except.noConfusion h
        | num v => exact Except.noConfusion h
        | arr v => exact Except.noConfusion h
        | obj v => exact Except.noConfusion h

theorem processRecord_inv (cfg : Cfg) (s : CState) (d : Json)
    (s' : CState) (h : processRecord cfg s d = .ok s')
    (hinv : mapInv s.id_map) : mapInv s'.id_map := by
  simp only [processRecord] at h
  repeat' split at h
  all_goals try exact Except.noConfusion h
  all_goals try (injection h with h; subst h; exact hinv)
  all_goals exact emitRecord_inv _ _ _ _ _ _ _ h hinv

theorem convertLoop_inv (cfg : Cfg) (lines : List Line) :
    ∀ s s', convertLoop cfg s lines = .ok s' →
      mapInv s.id_map → mapInv s'.id_map := by
  induction lines with
  | nil =>
    intro s s' h hinv
    injection h with h
    subst h
    exact hinv
  | cons l rest ih =>
    intro s s' h hinv
    cases l with
    | blank => exact ih s s' h hinv
    | malformed => exact ih _ s' h hinv
    | record d =>
      simp only [convertLoop] at h
      cases hp : processRecord cfg s d with
      | error e => rw [hp] at h; exact Except.noConfusion h
      | ok s1 =>
        rw [hp] at h
        exact ih s1 s' h (processRecord_inv cfg s d s1 hp hinv)

/-- C10: every accepted record with no timestamp field is still converted
— whether its uuid field is a present string or absent (defaulted to a
fresh random identifier) and whether its parentUuid is absent, falsy, or
a string; its outer timestamp is the configured first timestamp and its
inner message timestamp is the epoch-millisecond parse of that same
value; and in a full conversion the configured first timestamp is exactly
the value placed in the session header, which `convert` also returns. -/
theorem c10_default_timestamp (cfg : Cfg) (st : CState)
    (kvs mkvs : List (String × Json)) (tyS roleS : String) (content : Json)
    (norm : List Json)
    (hty : alookup kvs "type" = some (.str tyS))
    (htyv : tyS = "user" ∨ tyS = "assistant")
    (hmeta : truthy ((alookup kvs "isMeta").getD .null) = false)
    (hmsg : (alookup kvs "message").getD (.obj []) = .obj mkvs)
    (hrole : (alookup mkvs "role").getD .null = .str roleS)
    (hrolev : roleS = "user" ∨ roleS = "assistant")
    (hcontent : (alookup mkvs "content").getD .null = content)
    (hn1 : cfg.filter = true → roleS = "user" →
       is_command_noise content = false)
    (hnorm : normalize_content content = .ok (some norm))
    (hn2 : cfg.filter = true → roleS = "user" →
       ∃ jt, joinedTexts norm = .ok jt ∧ is_command_noise (.str jt) = false)
    (huuid : isStrV ((alookup kvs "uuid").getD
       (.str (cfg.freshId st.fresh))) = true)
    (hnots : alookup kvs "timestamp" = none)
    (hpar : truthy ((alookup kvs "parentUuid").getD .null) = false ∨
       ∃ p, (alookup kvs "parentUuid").getD .null = .str p) :
    (∃ st' m, processRecord cfg st (.obj kvs) = .ok st' ∧
       st'.out = st.out ++ [m] ∧
       jfield m "timestamp" = some cfg.first_ts ∧
       (∃ inner, jfield m "message" = some (.obj inner) ∧
          alookup inner "timestamp" =
            some (.num (parse_ts_ms cfg.fromiso cfg.first_ts)))) ∧
    (∀ (lines : List Line) (sid cwd : String) (fl : Bool) (now : String)
       (fi : String → Option Int) (fr : Nat → String)
       (st2 : CState) (ft mid : Json),
       convert lines sid cwd fl now fi fr = .ok (st2, ft, mid) →
       ∃ h1 h2 t, st2.out = h1 :: h2 :: t ∧
         jfield h1 "timestamp" = some ft ∧
         convertLoop ⟨fl, ft, fi, fr⟩
           { initState with out := [h1, h2] } lines = .ok st2) := by
  constructor
  · have hred := processRecord_accepted cfg st kvs mkvs tyS roleS content
      norm hty htyv hmeta hmsg hrole hrolev hcontent hn1 hnorm hn2
    obtain ⟨u, hu⟩ : ∃ u, (alookup kvs "uuid").getD
        (.str (cfg.freshId st.fresh)) = .str u := by
      cases hx : (alookup kvs "uuid").getD (.str (cfg.freshId st.fresh)) with
      | str v => exact ⟨v, rfl⟩
      | null => rw [hx] at huuid; simp [isStrV] at huuid
      | bool v => rw [hx] at huuid; simp [isStrV] at huuid
      | num v => rw [hx] at huuid; simp [isStrV] at huuid
      | arr v => rw [hx] at huuid; simp [isStrV] at huuid
      | obj v => rw [hx] at huuid; simp [isStrV] at huuid
    rcases hpar with hp | ⟨p, hp⟩
    · have hemit := emitRecord_noparent cfg st kvs mkvs (.str roleS) norm u
        hu hp
      rw [hnots] at hemit
      simp only [Option.getD_none] at hemit
      refine ⟨_, _, hred.trans hemit, rfl, ?_, ?_⟩
      · simp [jfield, alookup]
      · exact ⟨buildInner (.str roleS) mkvs norm
          (parse_ts_ms cfg.fromiso cfg.first_ts),
          by simp [jfield, alookup], buildInner_ts _ _ _ _⟩
    · by_cases hpe : p = ""
      · subst hpe
        have hp' : truthy ((alookup kvs "parentUuid").getD .null) = false := by
          rw [hp]; rfl
        have hemit := emitRecord_noparent cfg st kvs mkvs (.str roleS) norm u
          hu hp'
        rw [hnots] at hemit
        simp only [Option.getD_none] at hemit
        refine ⟨_, _, hred.trans hemit, rfl, ?_, ?_⟩
        · simp [jfield, alookup]
        · exact ⟨buildInner (.str roleS) mkvs norm
            (parse_ts_ms cfg.fromiso cfg.first_ts),
            by simp [jfield, alookup], buildInner_ts _ _ _ _⟩
      · have hemit := emitRecord_parent cfg st kvs mkvs (.str roleS) norm u p
          hu hp hpe
        rw [hnots] at hemit
        simp only [Option.getD_none] at hemit
        refine ⟨_, _, hred.trans hemit, rfl, ?_, ?_⟩
        · simp [jfield, alookup]
        · exact ⟨buildInner (.str roleS) mkvs norm
            (parse_ts_ms cfg.fromiso cfg.first_ts),
            by simp [jfield, alookup], buildInner_ts _ _ _ _⟩
  · intro lines sid cwd fl now fi fr st2 ft mid h
    simp only [convert] at h
    split at h
    · exact Except.noConfusion h
    · split at h
      case h_1 mid0 heq2 =>
        split at h
        · exact Except.noConfusion h
        case h_2 s3 heq3 =>
          injection h with h
          injection h with h1 h2
          injection h2 with h2a h2b
          subst h1
          subst h2a
          obtain ⟨t, ht⟩ := convertLoop_out_mono _ lines _ _ heq3
          refine ⟨_, _, t, by simpa using ht, by simp [jfield, alookup], ?_⟩
          simpa using heq3
      all_goals exact Except.noConfusion h

/-- Witness for C10: a user record with no timestamp, no uuid, and a
string parentUuid is emitted with the configured first timestamp outside
and its millisecond parse inside. -/
theorem c10_witness :
    ∃ st' m, processRecord cfgEx initState
        (.obj [("type", .str "user"),
          ("message", .obj [("role", .str "user"),
            ("content", .str "hello")]),
          ("parentUuid", .str "u0")]) = .ok st' ∧
      st'.out = initState.out ++ [m] ∧
      jfield m "timestamp" = some cfgEx.first_ts ∧
      (∃ inner, jfield m "message" = some (.obj inner) ∧
        alookup inner "timestamp" =
          some (.num (parse_ts_ms cfgEx.fromiso cfgEx.first_ts))) :=
  (c10_default_timestamp cfgEx initState
    [("type", .str "user"),
     ("message", .obj [("role", .str "user"), ("content", .str "hello")]),
     ("parentUuid", .str "u0")]
    [("role", .str "user"), ("content", .str "hello")]
    "user" "user" (.str "hello")
    [.obj [("type", .str "text"), ("text", .str "hello")]]
    rfl (Or.inl rfl) rfl rfl rfl (Or.inl rfl) rfl
    (fun _ _ => rfl) rfl
    (fun _ _ => ⟨"hello", rfl, rfl⟩) rfl rfl (Or.inr ⟨"u0", rfl⟩)).1

/-- C5: for an accepted record A with uuid u1 and no parentUuid, followed
— after any sequence of intervening input lines that the loop processes
successfully — by an accepted record B with uuid u2 and parentUuid u1,
the emitted message for B carries parentId equal to the id of the emitted
message for A (both are the fixed digest of u1: the id-map invariant is
preserved by every intervening step), and the emitted message for A
itself carries parentId null. -/
theorem c5_parent_linkage (cfg : Cfg) (stA : CState)
    (kvsA mkvsA kvsB mkvsB : List (String × Json))
    (tyA roleA tyB roleB : String) (contentA contentB : Json)
    (normA normB : List Json) (u1 u2 : String) (ls : List Line)
    (hinv : mapInv stA.id_map)
    (htyA : alookup kvsA "type" = some (.str tyA))
    (htyvA : tyA = "user" ∨ tyA = "assistant")
    (hmetaA : truthy ((alookup kvsA "isMeta").getD .null) = false)
    (hmsgA : (alookup kvsA "message").getD (.obj []) = .obj mkvsA)
    (hroleA : (alookup mkvsA "role").getD .null = .str roleA)
    (hrolevA : roleA = "user" ∨ roleA = "assistant")
    (hcontentA : (alookup mkvsA "content").getD .null = contentA)
    (hn1A : cfg.filter = true → roleA = "user" →
       is_command_noise contentA = false)
    (hnormA : normalize_content contentA = .ok (some normA))
    (hn2A : cfg.filter = true → roleA = "user" →
       ∃ jt, joinedTexts normA = .ok jt ∧ is_command_noise (.str jt) = false)
    (huuidA : alookup kvsA "uuid" = some (.str u1))
    (hparA : truthy ((alookup kvsA "parentUuid").getD .null) = false)
    (htyB : alookup kvsB "type" = some (.str tyB))
    (htyvB : tyB = "user" ∨ tyB = "assistant")
    (hmetaB : truthy ((alookup kvsB "isMeta").getD .null) = false)
    (hmsgB : (alookup kvsB "message").getD (.obj []) = .obj mkvsB)
    (hroleB : (alookup mkvsB "role").getD .null = .str roleB)
    (hrolevB : roleB = "user" ∨ roleB = "assistant")
    (hcontentB : (alookup mkvsB "content").getD .null = contentB)
    (hn1B : cfg.filter = true → roleB = "user" →
       is_command_noise contentB = false)
    (hnormB : normalize_content contentB = .ok (some normB))
    (hn2B : cfg.filter = true → roleB = "user" →
       ∃ jt, joinedTexts normB = .ok jt ∧ is_command_noise (.str jt) = false)
    (huuidB : alookup kvsB "uuid" = some (.str u2))
    (hparB : (alookup kvsB "parentUuid").getD .null = .str u1)
    (hu1ne : u1 ≠ "") :
    ∃ stB mA, processRecord cfg stA (.obj kvsA) = .ok stB ∧
      stB.out = stA.out ++ [mA] ∧
      jfield mA "parentId" = some .null ∧
      jfield mA "id" = some (.str (short_id u1)) ∧
      ∀ stMid, convertLoop cfg stB ls = .ok stMid →
        ∃ stC mB, processRecord cfg stMid (.obj kvsB) = .ok stC ∧
          stC.out = stMid.out ++ [mB] ∧
          jfield mB "parentId" = some (.str (short_id u1)) ∧
          jfield mB "parentId" = jfield mA "id" := by
  have hredA := processRecord_accepted cfg stA kvsA mkvsA tyA roleA contentA
    normA htyA htyvA hmetaA hmsgA hroleA hrolevA hcontentA hn1A hnormA hn2A
  have hgetA : (alookup kvsA "uuid").getD (.str (cfg.freshId stA.fresh)) =
      .str u1 := by rw [huuidA]; rfl
  have hemitA := emitRecord_noparent cfg stA kvsA mkvsA (.str roleA) normA u1
    hgetA hparA
  have hfstA : (get_short stA.id_map u1).1 = short_id u1 :=
    get_short_fst _ _ hinv
  refine ⟨_, _, hredA.trans hemitA, rfl, ?_, ?_, ?_⟩
  · simp [jfield, alookup]
  · simp [jfield, alookup, hfstA]
  · intro stMid hls
    have invB0 : mapInv ((get_short stA.id_map u1).2) :=
      get_short_inv _ _ hinv
    have invMid : mapInv stMid.id_map :=
      convertLoop_inv cfg ls _ stMid hls invB0
    have hfstB :
        (get_short (get_short stMid.id_map u2).2 u1).1 = short_id u1 :=
      get_short_fst _ _ (get_short_inv _ _ invMid)
    have hgetB : (alookup kvsB "uuid").getD
        (.str (cfg.freshId stMid.fresh)) = .str u2 := by rw [huuidB]; rfl
    have hstepB := (processRecord_accepted cfg stMid kvsB mkvsB tyB roleB
      contentB normB htyB htyvB hmetaB hmsgB hroleB hrolevB hcontentB hn1B
      hnormB hn2B).trans
      (emitRecord_parent cfg stMid kvsB mkvsB (.str roleB) normB u2 u1
        hgetB hparB hu1ne)
    refine ⟨_, _, hstepB, rfl, ?_, ?_⟩
    · simp only [jfield, alookup]
      simp [hfstB]
    · simp only [jfield, alookup]
      simp [hfstA, hfstB]

/-- Witness for C5 on the stream: record u1, then an intervening system
record (skipped by the loop), then record u2 with parent u1. -/
theorem c5_witness :
    ∃ stB mA, processRecord cfgEx initState
        (.obj [("type", .str "user"),
          ("message", .obj [("role", .str "user"),
            ("content", .str "hello")]),
          ("uuid", .str "u1")]) = .ok stB ∧
      stB.out = initState.out ++ [mA] ∧
      jfield mA "parentId" = some .null ∧
      jfield mA "id" = some (.str (short_id "u1")) ∧
      ∃ stC mB, processRecord cfgEx (skip1 stB)
          (.obj [("type", .str "assistant"),
            ("message", .obj [("role", .str "assistant"),
              ("content", .str "hi")]),
            ("uuid", .str "u2"), ("parentUuid", .str "u1")]) = .ok stC ∧
        stC.out = (skip1 stB).out ++ [mB] ∧
        jfield mB "parentId" = some (.str (short_id "u1")) ∧
        jfield mB "parentId" = jfield mA "id" := by
  obtain ⟨stB, mA, h1, h2, h3, h4, htail⟩ :=
    c5_parent_linkage cfgEx initState
      [("type", .str "user"),
       ("message", .obj [("role", .str "user"), ("content", .str "hello")]),
       ("uuid", .str "u1")]
      [("role", .str "user"), ("content", .str "hello")]
      [("type", .str "assistant"),
       ("message", .obj [("role", .str "assistant"), ("content", .str "hi")]),
       ("uuid", .str "u2"), ("parentUuid", .str "u1")]
      [("role", .str "assistant"), ("content", .str "hi")]
      "user" "user" "assistant" "assistant"
      (.str "hello") (.str "hi")
      [.obj [("type", .str "text"), ("text", .str "hello")]]
      [.obj [("type", .str "text"), ("text", .str "hi")]]
      "u1" "u2" [.record (.obj [("type", .str "system")])]
      (by intro k v h; simp [initState, alookup] at h)
      rfl (Or.inl rfl) rfl rfl rfl (Or.inl rfl) rfl
      (fun _ _ => rfl) rfl (fun _ _ => ⟨"hello", rfl, rfl⟩) rfl rfl
      rfl (Or.inr rfl) rfl rfl rfl (Or.inr rfl) rfl
      (fun _ h => absurd h (by decide)) rfl
      (fun _ h => absurd h (by decide)) rfl rfl
      (by decide)
  have hmid : convertLoop cfgEx stB
      [.record (.obj [("type", .str "system")])] = .ok (skip1 stB) := by
    simp [convertLoop, processRecord, pyGet, pyGetD, alookup]
  obtain ⟨stC, mB, h5, h6, h7, h8⟩ := htail (skip1 stB) hmid
  exact ⟨stB, mA, h1, h2, h3, h4, stC, mB, h5, h6, h7, h8⟩

/-! ### Detection characterization, C3, C6 -/

theorem processRecord_nonobj (cfg : Cfg) (s : CState) (d : Json)
    (h : isObj d = false) :
    processRecord cfg s d = .error "AttributeError" := by
  cases d <;> simp [processRecord, pyGet, pyGetD] <;> simp [isObj] at h

theorem convertLoop_records_obj (cfg : Cfg) (lines : List Line) :
    ∀ s s', convertLoop cfg s lines = .ok s' →
      ∀ d, Line.record d ∈ lines → isObj d = true := by
  induction lines with
  | nil => intro s s' _ d hd; cases hd
  | cons l rest ih =>
    intro s s' h d hd
    cases l with
    | blank =>
      rcases List.mem_cons.mp hd with hc | hm
      · cases hc
      · exact ih s s' h d hm
    | malformed =>
      rcases List.mem_cons.mp hd with hc | hm
      · cases hc
      · exact ih _ s' h d hm
    | record d2 =>
      simp only [convertLoop] at h
      cases hp : processRecord cfg s d2 with
      | error e => rw [hp] at h; exact Except.noConfusion h
      | ok s1 =>
        rw [hp] at h
        rcases List.mem_cons.mp hd with hc | hm
        · injection hc with hc
          subst hc
          cases ho : isObj d
          · rw [processRecord_nonobj cfg s d ho] at hp
            exact Except.noConfusion hp
          · rfl
        · exact ih s1 s' h d hm

theorem detect_go_some (lines : List Line) :
    ∀ a : Json, (∀ d, Line.record d ∈ lines → isObj d = true) →
      ∃ m, detect_go lines (some a) = .ok (some a, m) := by
  induction lines with
  | nil => intro a _; exact ⟨none, rfl⟩
  | cons l rest ih =>
    intro a hobj
    have hrest : ∀ d, Line.record d ∈ rest → isObj d = true :=
      fun d hd => hobj d (by simp [hd])
    cases l with
    | blank => exact ih a hrest
    | malformed => exact ih a hrest
    | record d =>
      have hd : isObj d = true := hobj d (by simp)
      cases d with
      | obj kvs =>
        by_cases h1 : isStr ((alookup kvs "type").getD .null) "assistant" = true
        · cases hmsg0 : (alookup kvs "message").getD .null with
          | obj m2 =>
            by_cases hm : truthy ((alookup m2 "model").getD .null) = true
            · exact ⟨some ((alookup m2 "model").getD .null), by
                simp [detect_go, pyGet, pyGetD, h1, hmsg0, hm, isObj]⟩
            · obtain ⟨mm, hmm⟩ := ih a hrest
              exact ⟨mm, by
                simp [detect_go, pyGet, pyGetD, h1, hmsg0, hm, isObj, hmm]⟩
          | null =>
            obtain ⟨mm, hmm⟩ := ih a hrest
            exact ⟨mm, by
              simp [detect_go, pyGet, pyGetD, h1, hmsg0, isObj, hmm]⟩
          | bool v =>
            obtain ⟨mm, hmm⟩ := ih a hrest
            exact ⟨mm, by
              simp [detect_go, pyGet, pyGetD, h1, hmsg0, isObj, hmm]⟩
          | num v =>
            obtain ⟨mm, hmm⟩ := ih a hrest
            exact ⟨mm, by
              simp [detect_go, pyGet, pyGetD, h1, hmsg0, isObj, hmm]⟩
          | str v =>
            obtain ⟨mm, hmm⟩ := ih a hrest
            exact ⟨mm, by
              simp [detect_go, pyGet, pyGetD, h1, hmsg0, isObj, hmm]⟩
          | arr v =>
            obtain ⟨mm, hmm⟩ := ih a hrest
            exact ⟨mm, by
              simp [detect_go, pyGet, pyGetD, h1, hmsg0, isObj, hmm]⟩
        · obtain ⟨mm, hmm⟩ := ih a hrest
          exact ⟨mm, by simp [detect_go, pyGet, pyGetD, h1, hmm]⟩
      | null => simp [isObj] at hd
      | bool v => simp [isObj] at hd
      | num v => simp [isObj] at hd
      | str v => simp [isObj] at hd
      | arr v => simp [isObj] at hd

theorem detect_go_none (lines : List Line) :
    (∀ d, Line.record d ∈ lines → isObj d = true) →
    ∃ m, detect_go lines none = .ok (firstTruthyTs (detectSpan lines), m) := by
  induction lines with
  | nil => intro _; exact ⟨none, rfl⟩
  | cons l rest ih =>
    intro hobj
    have hrest : ∀ d, Line.record d ∈ rest → isObj d = true :=
      fun d hd => hobj d (by simp [hd])
    cases l with
    | blank =>
      obtain ⟨m, hm⟩ := ih hrest
      exact ⟨m, by simpa [detect_go, detectSpan, firstTruthyTs] using hm⟩
    | malformed =>
      obtain ⟨m, hm⟩ := ih hrest
      exact ⟨m, by simpa [detect_go, detectSpan, firstTruthyTs] using hm⟩
    | record d =>
      have hd : isObj d = true := hobj d (by simp)
      cases d with
      | obj kvs =>
        by_cases hts : truthy ((alookup kvs "timestamp").getD .null) = true
        · by_cases h1 :
              isStr ((alookup kvs "type").getD .null) "assistant" = true
          · cases hmsg0 : (alookup kvs "message").getD .null with
            | obj m2 =>
              by_cases hm : truthy ((alookup m2 "model").getD .null) = true
              · exact ⟨some ((alookup m2 "model").getD .null), by
                  simp [detect_go, pyGet, pyGetD, detectSpan, firstTruthyTs,
                    announcesModel, h1, hmsg0, hm, hts, isObj]⟩
              · obtain ⟨mm, hmm⟩ :=
                  detect_go_some rest ((alookup kvs "timestamp").getD .null)
                    hrest
                exact ⟨mm, by
                  simp [detect_go, pyGet, pyGetD, detectSpan, firstTruthyTs,
                    announcesModel, h1, hmsg0, hm, hts, isObj, hmm]⟩
            | null =>
              obtain ⟨mm, hmm⟩ :=
                detect_go_some rest ((alookup kvs "timestamp").getD .null)
                  hrest
              exact ⟨mm, by
                simp [detect_go, pyGet, pyGetD, detectSpan, firstTruthyTs,
                  announcesModel, h1, hmsg0, hts, isObj, hmm]⟩
            | bool v =>
              obtain ⟨mm, hmm⟩ :=
                detect_go_some rest ((alookup kvs "timestamp").getD .null)
                  hrest
              exact ⟨mm, by
                simp [detect_go, pyGet, pyGetD, detectSpan, firstTruthyTs,
                  announcesModel, h1, hmsg0, hts, isObj, hmm]⟩
            | num v =>
              obtain ⟨mm, hmm⟩ :=
                detect_go_some rest ((alookup kvs "timestamp").getD .null)
                  hrest
              exact ⟨mm, by
                simp [detect_go, pyGet, pyGetD, detectSpan, firstTruthyTs,
                  announcesModel, h1, hmsg0, hts, isObj, hmm]⟩
            | str v =>
              obtain ⟨mm, hmm⟩ :=
                detect_go_some rest ((alookup kvs "timestamp").getD .null)
                  hrest
              exact ⟨mm, by
                simp [detect_go, pyGet, pyGetD, detectSpan, firstTruthyTs,
                  announcesModel, h1, hmsg0, hts, isObj, hmm]⟩
            | arr v =>
              obtain ⟨mm, hmm⟩ :=
                detect_go_some rest ((alookup kvs "timestamp").getD .null)
                  hrest
              exact ⟨mm, by
                simp [detect_go, pyGet, pyGetD, detectSpan, firstTruthyTs,
                  announcesModel, h1, hmsg0, hts, isObj, hmm]⟩
          · obtain ⟨mm, hmm⟩ :=
              detect_go_some rest ((alookup kvs "timestamp").getD .null) hrest
            exact ⟨mm, by
              simp [detect_go, pyGet, pyGetD, detectSpan, firstTruthyTs,
                announcesModel, h1, hts, hmm]⟩
        · by_cases h1 :
              isStr ((alookup kvs "type").getD .null) "assistant" = true
          · cases hmsg0 : (alookup kvs "message").getD .null with
            | obj m2 =>
              by_cases hm : truthy ((alookup m2 "model").getD .null) = true
              · exact ⟨some ((alookup m2 "model").getD .null), by
                  simp [detect_go, pyGet, pyGetD, detectSpan, firstTruthyTs,
                    announcesModel, h1, hmsg0, hm, hts, isObj]⟩
              · obtain ⟨mm, hmm⟩ := ih hrest
                exact ⟨mm, by
                  simp [detect_go, pyGet, pyGetD, detectSpan, firstTruthyTs,
                    announcesModel, h1, hmsg0, hm, hts, isObj, hmm]⟩
            | null =>
              obtain ⟨mm, hmm⟩ := ih hrest
              exact ⟨mm, by
                simp [detect_go, pyGet, pyGetD, detectSpan, firstTruthyTs,
                  announcesModel, h1, hmsg0, hts, isObj, hmm]⟩
            | bool v =>
              obtain ⟨mm, hmm⟩ := ih hrest
              exact ⟨mm, by
                simp [detect_go, pyGet, pyGetD, detectSpan, firstTruthyTs,
                  announcesModel, h1, hmsg0, hts, isObj, hmm]⟩
            | num v =>
              obtain ⟨mm, hmm⟩ := ih hrest
              exact ⟨mm, by
                simp [detect_go, pyGet, pyGetD, detectSpan, firstTruthyTs,
                  announcesModel, h1, hmsg0, hts, isObj, hmm]⟩
            | str v =>
              obtain ⟨mm, hmm⟩ := ih hrest
              exact ⟨mm, by
                simp [detect_go, pyGet, pyGetD, detectSpan, firstTruthyTs,
                  announcesModel, h1, hmsg0, hts, isObj, hmm]⟩
            | arr v =>
              obtain ⟨mm, hmm⟩ := ih hrest
              exact ⟨mm, by
                simp [detect_go, pyGet, pyGetD, detectSpan, firstTruthyTs,
                  announcesModel, h1, hmsg0, hts, isObj, hmm]⟩
          · obtain ⟨mm, hmm⟩ := ih hrest
            exact ⟨mm, by
              simp [detect_go, pyGet, pyGetD, detectSpan, firstTruthyTs,
                announcesModel, h1, hts, hmm]⟩
      | null => simp [isObj] at hd
      | bool v => simp [isObj] at hd
      | num v => simp [isObj] at hd
      | str v => simp [isObj] at hd
      | arr v => simp [isObj] at hd

theorem detect_model_spec (lines : List Line) (now : String)
    (hobj : ∀ d, Line.record d ∈ lines → isObj d = true) :
    ∃ m, detect_model lines now =
      .ok ((firstTruthyTs (detectSpan lines)).getD (.str now), m) := by
  obtain ⟨m, hm⟩ := detect_go_none lines hobj
  exact ⟨m.getD (.str "claude-opus-4-6"), by simp [detect_model, hm]⟩

/-- C3 counterexample: on a stream whose first line announces the model
with no timestamp and whose second line carries the only timestamp, the
header timestamp is the current wall-clock time, not the timestamp that
exists later in the input — the detection scan breaks at the
model-announcing line. -/
theorem c3_counterexample :
    cvHeaderTs (convert linesC3 "sid" "/home/user" true "NOW"
      (fun _ => none) (fun _ => "f")) = some (.str "NOW") ∧
    jfield exTsOnly "timestamp" = some (.str "2024-01-01T00:00:00Z") ∧
    Json.str "NOW" ≠ Json.str "2024-01-01T00:00:00Z" := by
  refine ⟨rfl, rfl, ?_⟩
  intro h
  injection h with h
  exact absurd h (by decide)

/-- C3 (amended): the first output line is a session record, the second a
model_change record, both carrying the same timestamp, equal to the
returned first timestamp; that timestamp is the first truthy timestamp
occurring at or before the line where the detection scan stops — the first
assistant record announcing a model — or the current time when no
timestamp was seen by then.  Timestamps appearing only after the
model-announcing line are not consulted. -/
theorem c3_headers (lines : List Line) (sid cwd : String) (fl : Bool)
    (now : String) (fi : String → Option Int) (fr : Nat → String)
    (st : CState) (ft mid : Json)
    (h : convert lines sid cwd fl now fi fr = .ok (st, ft, mid)) :
    ∃ h1 h2 t, st.out = h1 :: h2 :: t ∧
      jfield h1 "type" = some (.str "session") ∧
      jfield h2 "type" = some (.str "model_change") ∧
      jfield h1 "timestamp" = some ft ∧
      jfield h2 "timestamp" = some ft ∧
      ft = (firstTruthyTs (detectSpan lines)).getD (.str now) := by
  simp only [convert] at h
  split at h
  next e heq0 => exact Except.noConfusion h
  next ftm heq1 =>
    split at h
    next mid0 heq2 =>
      split at h
      next e heq => exact Except.noConfusion h
      next s3 heq3 =>
        injection h with h
        injection h with h1 h2
        injection h2 with h2a h2b
        subst h1
        subst h2a
        have hobj := convertLoop_records_obj _ lines _ _ heq3
        obtain ⟨m, hm⟩ := detect_model_spec lines now hobj
        rw [heq1] at hm
        injection hm with hm
        have hft : ftm.1 = (firstTruthyTs (detectSpan lines)).getD
            (.str now) := congrArg Prod.fst hm
        obtain ⟨t, ht⟩ := convertLoop_out_mono _ lines _ _ heq3
        refine ⟨_, _, t, by simpa using ht, ?_, ?_, ?_, ?_, hft⟩
        · simp [jfield, alookup]
        · simp [jfield, alookup]
        · simp [jfield, alookup]
        · simp [jfield, alookup]
    next heq2 => exact Except.noConfusion h

/-- Witness for C3 on the concrete stream where the timestamp follows the
model announcement: the headers share the returned timestamp, which is the
current time because no truthy timestamp precedes the stopping line. -/
theorem c3_witness :
    ∃ st ft mid,
      convert linesC3 "sid" "/home/user" true "NOW" (fun _ => none)
        (fun _ => "f") = .ok (st, ft, mid) ∧
      ∃ h1 h2 t, st.out = h1 :: h2 :: t ∧
        jfield h1 "type" = some (.str "session") ∧
        jfield h2 "type" = some (.str "model_change") ∧
        jfield h1 "timestamp" = some ft ∧
        jfield h2 "timestamp" = some ft ∧
        ft = (firstTruthyTs (detectSpan linesC3)).getD (.str "NOW") := by
  obtain ⟨st, ft, mid, hok⟩ : ∃ st ft mid,
      convert linesC3 "sid" "/home/user" true "NOW" (fun _ => none)
        (fun _ => "f") = .ok (st, ft, mid) := by
    have hcv : cvOk (convert linesC3 "sid" "/home/user" true "NOW"
        (fun _ => none) (fun _ => "f")) = true := rfl
    cases hc : convert linesC3 "sid" "/home/user" true "NOW" (fun _ => none)
        (fun _ => "f") with
    | error e => rw [hc] at hcv; exact absurd hcv (by simp [cvOk])
    | ok r =>
      obtain ⟨a, b, c⟩ := r
      exact ⟨a, b, c, rfl⟩
  exact ⟨st, ft, mid, hok,
    c3_headers linesC3 "sid" "/home/user" true "NOW" (fun _ => none)
      (fun _ => "f") st ft mid hok⟩

/-- C6: is_command_noise holds on a string exactly when one of the five
fixed markers occurs in it as a contiguous substring; consequently the
user record whose content is exactly the command-name marker text is
skipped and not converted under filtering, and is converted into one
output line when filtering is disabled. -/
theorem c6_noise_filter :
    (∀ s : String, is_command_noise (.str s) = true ↔
       ∃ tag ∈ COMMAND_NOISE, ∃ l r, s.toList = l ++ tag.toList ++ r) ∧
    okSkipped (processRecord cfgEx initState exNoise) = some 1 ∧
    okConverted (processRecord cfgEx initState exNoise) = some 0 ∧
    okOutLen (processRecord cfgEx initState exNoise) = some 0 ∧
    okSkipped (processRecord cfgExNoFilter initState exNoise) = some 0 ∧
    okConverted (processRecord cfgExNoFilter initState exNoise) = some 1 ∧
    okOutLen (processRecord cfgExNoFilter initState exNoise) = some 1 := by
  refine ⟨?_, rfl, rfl, rfl, rfl, rfl, rfl⟩
  intro s
  simp only [is_command_noise, List.any_eq_true, occursIn_iff]

end C2O
